import Mathlib

/-!
Verification development for the `calver-release` tool: a shallow embedding of
its CalVer generator (`lib/calver.js`), git-operations wrapper
(`lib/git-operations.js`) and the `create` command pipeline
(`bin/calver-release.js`), together with theorems settling the specification
claims about them.

Modelling conventions:
* JS strings are Lean `String`s; per-character work happens on `String.data`.
* JS numbers that the code produces via `parseInt` and integer arithmetic are
  modelled as `Int` (all values involved are exact integers).
* Asynchronous git calls are modelled by an environment record holding each
  underlying call's result as `Except String _` (error = the call threw).
* `console.log` / `console.error` output is modelled as lists of lines with
  colouring and leading blank lines dropped.
-/

/-- JS `v.startsWith(prefixStr)`: the second string is a literal prefix of the
first. -/
def startsWithJS (s p : String) : Bool :=
  p.data.isPrefixOf s.data

/-- JS `s.split('.')` on the character list: split on `'.'`, keeping empty
components (`"".split('.')` is `[""]`, `"a.".split('.')` is `["a", ""]`). -/
def splitOnDot : List Char → List (List Char)
  | [] => [[]]
  | c :: rest =>
    let r := splitOnDot rest
    if c = '.' then [] :: r
    else
      match r with
      | [] => [[c]]
      | h :: t => (c :: h) :: t

/-- Decimal digits of `n`, most significant first, via an explicit fuel
argument (`fuel > n` suffices) so that the kernel can evaluate it. -/
def natDecimalAux : Nat → Nat → List Char
  | 0, _ => []
  | fuel + 1, n =>
    if n < 10 then [Nat.digitChar n]
    else natDecimalAux fuel (n / 10) ++ [Nat.digitChar (n % 10)]

/-- Decimal rendering of a natural number, most significant digit first. -/
def natDecimalChars (n : Nat) : List Char :=
  natDecimalAux (n + 1) n

/-- JS number-to-string for an exact integer value (as in `` `${increment}` ``). -/
def intDecimal (n : Int) : String :=
  if n < 0 then "-" ++ String.mk (natDecimalChars n.natAbs)
  else String.mk (natDecimalChars n.toNat)

/-- Left zero-padding to width `k`, as moment does for `YYYY` / `MM` / `DD`. -/
def zeroPad (k : Nat) (l : List Char) : List Char :=
  List.replicate (k - l.length) '0' ++ l

/-- JS `String.prototype.toLowerCase` (ASCII letters, which is all the format
specifiers use). -/
def toLowerJS (s : String) : String :=
  String.mk (s.data.map Char.toLower)

/-- Value of a decimal digit run (most significant first). -/
def decValue (l : List Char) : Nat :=
  l.foldl (fun a c => a * 10 + (c.toNat - 48)) 0

/-- Hexadecimal digit test, for `parseInt`'s inferred radix-16 form. -/
def isHexDigit (c : Char) : Bool :=
  c.isDigit || ('a' ≤ c && c ≤ 'f') || ('A' ≤ c && c ≤ 'F')

/-- Value of one hexadecimal digit. -/
def hexDigitVal (c : Char) : Nat :=
  if c.isDigit then c.toNat - 48
  else if 'a' ≤ c && c ≤ 'f' then c.toNat - 87
  else c.toNat - 55

/-- Value of a hexadecimal digit run (most significant first). -/
def hexValue (l : List Char) : Nat :=
  l.foldl (fun a c => a * 16 + hexDigitVal c) 0

/-- JS `parseInt(s)` (no explicit radix): skip leading whitespace, optional
sign, then either a `0x`/`0X`-prefixed hexadecimal digit run or a decimal
digit run, taking the longest such prefix; `none` models `NaN`. -/
def parseIntJS (s : String) : Option Int :=
  let l := s.data.dropWhile Char.isWhitespace
  let signed : Int × List Char :=
    match l with
    | '-' :: rest => (-1, rest)
    | '+' :: rest => (1, rest)
    | _ => (1, l)
  match signed.2 with
  | '0' :: 'x' :: rest =>
    let ds := rest.takeWhile isHexDigit
    if ds.isEmpty then none else some (signed.1 * (hexValue ds : Nat))
  | '0' :: 'X' :: rest =>
    let ds := rest.takeWhile isHexDigit
    if ds.isEmpty then none else some (signed.1 * (hexValue ds : Nat))
  | rest =>
    let ds := rest.takeWhile Char.isDigit
    if ds.isEmpty then none else some (signed.1 * (decValue ds : Nat))

/-- The source's `parseInt(lastPart) || 0`: `NaN` (and `0` itself) become `0`. -/
def parseIntOr0 (s : String) : Int :=
  (parseIntJS s).getD 0

/-!
## CalVer generator (`lib/calver.js`)

A moment instant, UTC-normalised, is modelled by the calendar field
observations the six recognised templates render: year, (1-based) month,
day of month, ISO week of year, and day of year.
-/

/-- A UTC date, given by the field observations moment's formatting reads. -/
structure DateUTC where
  year : Nat
  month : Nat
  day : Nat
  isoWeek : Nat
  dayOfYear : Nat
deriving DecidableEq

/-- Rendering of a moment format template over the tokens the tool's six
specifiers use (`YYYY`, `YY`, `MM`, `DD`, `WW`, `DDD`; every other character
passes through literally), longest token first as in moment. -/
def momentFormatChars (d : DateUTC) : List Char → List Char
  | 'Y' :: 'Y' :: 'Y' :: 'Y' :: rest =>
    zeroPad 4 (natDecimalChars d.year) ++ momentFormatChars d rest
  | 'Y' :: 'Y' :: rest =>
    zeroPad 2 (natDecimalChars (d.year % 100)) ++ momentFormatChars d rest
  | 'M' :: 'M' :: rest =>
    zeroPad 2 (natDecimalChars d.month) ++ momentFormatChars d rest
  | 'D' :: 'D' :: 'D' :: rest =>
    natDecimalChars d.dayOfYear ++ momentFormatChars d rest
  | 'D' :: 'D' :: rest =>
    zeroPad 2 (natDecimalChars d.day) ++ momentFormatChars d rest
  | 'W' :: 'W' :: rest =>
    zeroPad 2 (natDecimalChars d.isoWeek) ++ momentFormatChars d rest
  | c :: rest => c :: momentFormatChars d rest
  | [] => []

/-- Model of `m.format(template)` for a UTC moment `m`. -/
def momentFormat (template : String) (d : DateUTC) : String :=
  String.mk (momentFormatChars d template.data)

/-- Embedding of `CalVerGenerator.generate`: switch on the lowercased format specifier,
with unrecognised specifiers passed through to the formatter literally. -/
def generate (format : String) (d : DateUTC) : String :=
  let f := toLowerJS format
  if f == "yyyy.mm.dd" then momentFormat "YYYY.MM.DD" d
  else if f == "yy.mm.dd" then momentFormat "YY.MM.DD" d
  else if f == "yyyy.mm" then momentFormat "YYYY.MM" d
  else if f == "yyyy.ww" then momentFormat "YYYY.WW" d
  else if f == "yyyymmdd" then momentFormat "YYYYMMDD" d
  else if f == "yyyy.ddd" then momentFormat "YYYY.DDD" d
  else momentFormat format d

/-- The `CalVerGenerator` constructor's `options.format || 'YYYY.MM.DD'`. -/
def calverConstructorFormat (format : String) : String :=
  if format == "" then "YYYY.MM.DD" else format

/-- The per-version body of `generateIncremental`'s `.map`: split on `"."`,
take the final component, `parseInt(lastPart) || 0`. -/
def lastComponentInt (v : String) : Int :=
  let parts := (splitOnDot v.data).map String.mk
  let lastPart := parts.getLastD ""
  parseIntOr0 lastPart

/-- Insertion step of a descending sort (models `.sort((a, b) => b - a)`). -/
def insertDesc (x : Int) : List Int → List Int
  | [] => [x]
  | y :: ys => if x ≥ y then x :: y :: ys else y :: insertDesc x ys

/-- Descending sort of the parsed suffix numbers. -/
def sortDesc : List Int → List Int
  | [] => []
  | x :: xs => insertDesc x (sortDesc xs)

/-- Embedding of `CalVerGenerator.generateIncremental`: filter the existing versions to
prefix matches, parse each match's final dot component, sort descending, and
append (max + 1) to the base; base unchanged when nothing matches. -/
def generateIncremental (baseVersion : String) (existingVersions : List String) : String :=
  let matchingVersions :=
    sortDesc ((existingVersions.filter (fun v => startsWithJS v baseVersion)).map
      lastComponentInt)
  if matchingVersions.length == 0 then
    baseVersion
  else
    baseVersion ++ "." ++ intDecimal (matchingVersions.headD 0 + 1)

/-- Maximum of a list of integers (`0` for the empty list, which the callers
never hit). -/
def maxIntList : List Int → Int
  | [] => 0
  | x :: xs => xs.foldl max x

/-- Modelled from the spec: the §4.2 algorithm for
`resolve(baseVersion, existingVersions)` as the spec words it — filter
`existingVersions` to those with `baseVersion` as a literal string prefix,
parse each match's final `"."`-component as an integer (unparsable treated as
0), take the maximum, add 1 and join it to `baseVersion` with `"."`; return
`baseVersion` unchanged when no element matches. -/
def resolveSpec (baseVersion : String) (existingVersions : List String) : String :=
  let matched := existingVersions.filter (fun v => startsWithJS v baseVersion)
  if matched.isEmpty then baseVersion
  else
    baseVersion ++ "." ++ intDecimal (maxIntList (matched.map lastComponentInt) + 1)



/-!
## Git operations wrapper (`lib/git-operations.js`)

Each underlying `simple-git` call is modelled by its result in a `GitEnv`
record: `.ok` = the awaited call resolved, `.error` = it threw.
-/

/-- The fields of a `simple-git` `status()` result that the tool reads. -/
structure GitStatus where
  current : String
  files : List String
  ahead : Nat
  behind : Nat
deriving DecidableEq

/-- One entry of `git.getRemotes(true)`. -/
structure GitRemote where
  name : String
  fetchRef : String
deriving DecidableEq

/-- Results of the underlying git invocations the wrapper performs. -/
structure GitEnv where
  status : Except String GitStatus
  tags : Except String (List String)
  localBranches : Except String (List String)
  remoteBranches : Except String (List String)
  remotes : Except String (List GitRemote)

/-- The record `getRepoInfo` returns. -/
structure RepoInfo where
  currentBranch : String
  isClean : Bool
  remoteUrl : Option String
  ahead : Nat
  behind : Nat
deriving DecidableEq

/-- Embedding of `GitOperations.isGitRepo`: `status()` succeeded. -/
def isGitRepo (env : GitEnv) : Bool :=
  match env.status with
  | .ok _ => true
  | .error _ => false

/-- Embedding of `GitOperations.getRepoInfo`: reads remotes and status, wrapping any
underlying failure into a `Failed to get repository info` error. -/
def getRepoInfo (env : GitEnv) : Except String RepoInfo :=
  match env.remotes, env.status with
  | .ok rs, .ok st =>
    let origin := rs.find? (fun r => r.name == "origin")
    .ok { currentBranch := st.current
          isClean := st.files.length == 0
          remoteUrl := origin.map (fun r => r.fetchRef)
          ahead := st.ahead
          behind := st.behind }
  | .error e, _ => .error ("Failed to get repository info: " ++ e)
  | .ok _, .error e => .error ("Failed to get repository info: " ++ e)

/-- Embedding of `GitOperations.branchExists`: local branch list contains the name;
`false` when the underlying call fails. -/
def branchExists (env : GitEnv) (branchName : String) : Bool :=
  match env.localBranches with
  | .ok bs => bs.contains branchName
  | .error _ => false

/-- Does `p` hold of some suffix of the character list? (Used to model the
unanchored JS regex / `String.prototype.includes` searches.) -/
def anySuffix (p : List Char → Bool) : List Char → Bool
  | [] => p []
  | c :: rest => p (c :: rest) || anySuffix p rest

/-- JS `s.includes(sub)`: `sub` occurs as a contiguous substring of `s`. -/
def includesJS (s sub : String) : Bool :=
  anySuffix (fun t => sub.data.isPrefixOf t) s.data

/-- Embedding of `GitOperations.remoteBranchExists`: some `git branch -r` entry contains
`remote ++ "/" ++ branchName`; `false` when the underlying call fails. -/
def remoteBranchExists (env : GitEnv) (branchName remote : String) : Bool :=
  match env.remoteBranches with
  | .ok bs => bs.any (fun b => includesJS b (remote ++ "/" ++ branchName))
  | .error _ => false

/-- Embedding of `GitOperations.getMatchingTags`: filter the tag list by the pattern
(a regex, modelled as a `String → Bool` predicate); empty on failure. -/
def getMatchingTags (env : GitEnv) (pattern : String → Bool) : List String :=
  match env.tags with
  | .ok ts => ts.filter pattern
  | .error _ => []

/-- Embedding of `GitOperations.getMatchingBranches`: filter the local branch list by the
pattern; empty on failure. -/
def getMatchingBranches (env : GitEnv) (pattern : String → Bool) : List String :=
  match env.localBranches with
  | .ok bs => bs.filter pattern
  | .error _ => []

/-!
## Release orchestrator (`bin/calver-release.js`, `create` command)
-/

/-- The `create` command's options as commander delivers them. -/
structure CreateOptions where
  format : String
  baseBranch : String
  push : Bool
  dryRun : Bool
  interactive : Bool
deriving DecidableEq

/-- The answers `runInteractiveMode` collects from its three prompts. -/
structure InteractiveAnswers where
  format : String
  baseBranch : String
  push : Bool
deriving DecidableEq

/-- Embedding of `runInteractiveMode`: `{ ...options, ...answers }`. -/
def runInteractiveMode (options : CreateOptions) (answers : InteractiveAnswers) :
    CreateOptions :=
  { options with
    format := answers.format
    baseBranch := answers.baseBranch
    push := answers.push }

/-- A mutating git operation the pipeline invokes. -/
inductive GitCall where
  | createBranch (name fromBranch : String)
  | pushBranch (name remote : String)
deriving DecidableEq

/-- Everything outside the process that one `create` run observes. -/
structure Env where
  gitEnv : GitEnv
  date : DateUTC
  answers : InteractiveAnswers
  confirmAnswer : Bool
  createBranchErr : Option String
  pushErr : Option String

/-- The regex `^v?<base, dots escaped>` built for `getMatchingTags`: the tag
starts with the base version, optionally preceded by a literal `v`. -/
def tagPatternMatch (baseVersion tag : String) : Bool :=
  startsWithJS tag baseVersion || startsWithJS tag ("v" ++ baseVersion)

/-- The regex `release.*<base, dots escaped>` built for
`getMatchingBranches`: unanchored, so the branch contains `release` followed
(at any distance) by the base version. -/
def branchPatternMatch (baseVersion branch : String) : Bool :=
  anySuffix
    (fun t =>
      "release".data.isPrefixOf t &&
      anySuffix (fun u => baseVersion.data.isPrefixOf u) (t.drop 7))
    branch.data

/-- Model of `tag.replace(/^v/, '')`. -/
def stripLeadingV (s : String) : String :=
  match s.data with
  | 'v' :: rest => String.mk rest
  | _ => s

/-- Model of `branch.replace(/^release\/v?/, '')` (the regex is greedy, so a leading
`release/v` loses the `v` too). -/
def stripReleaseV (s : String) : String :=
  match s.data with
  | 'r' :: 'e' :: 'l' :: 'e' :: 'a' :: 's' :: 'e' :: '/' :: 'v' :: rest => String.mk rest
  | 'r' :: 'e' :: 'l' :: 'e' :: 'a' :: 's' :: 'e' :: '/' :: rest => String.mk rest
  | _ => s

/-- Model of `Array.prototype.join(', ')`. -/
def joinComma : List String → String
  | [] => ""
  | [s] => s
  | s :: rest => s ++ ", " ++ joinComma rest

/-- The options actually used after the optional interactive step. -/
def effectiveConfig (env : Env) (options : CreateOptions) : CreateOptions :=
  if options.interactive then runInteractiveMode options env.answers else options

/-- Value of `calver.generate()` on today's date with the configured format. -/
def baseVersionOf (env : Env) (options : CreateOptions) : String :=
  generate (calverConstructorFormat (effectiveConfig env options).format) env.date

/-- The tags matching `^v?<base>`. -/
def existingTagsOf (env : Env) (options : CreateOptions) : List String :=
  getMatchingTags env.gitEnv (tagPatternMatch (baseVersionOf env options))

/-- The local branches matching `release.*<base>`. -/
def existingBranchesOf (env : Env) (options : CreateOptions) : List String :=
  getMatchingBranches env.gitEnv (branchPatternMatch (baseVersionOf env options))

/-- Value of `calver.generateIncremental(baseVersion, [...strippedTags, ...strippedBranches])`. -/
def finalVersionOf (env : Env) (options : CreateOptions) : String :=
  generateIncremental (baseVersionOf env options)
    ((existingTagsOf env options).map stripLeadingV ++
      (existingBranchesOf env options).map stripReleaseV)

/-- The target branch name `release/v<finalVersion>`. -/
def branchNameOf (env : Env) (options : CreateOptions) : String :=
  "release/v" ++ finalVersionOf env options

/-- The trailing `Next steps` block logged on success. -/
def successLines (finalVersion : String) : List String :=
  ["✨ Release branch created successfully!",
   "Next steps:",
   "  1. Make your changes on this branch",
   "  2. Run your QA pipeline",
   "  3. Create a tag: git tag v" ++ finalVersion,
   "  4. Push tag: git push origin v" ++ finalVersion]

/-- Result of `createReleaseBranch` itself: normal return or a thrown error,
with the log lines written and the mutating git calls issued so far. -/
inductive CreateOutcome where
  | returned (log : List String) (calls : List GitCall)
  | threw (msg : String) (log : List String) (calls : List GitCall)

/-- Embedding of `createReleaseBranch(options)`: the `create` pipeline. -/
def createReleaseBranch (env : Env) (options : CreateOptions) : CreateOutcome :=
  if !(isGitRepo env.gitEnv) then
    .threw "Not in a git repository" [] []
  else
    match getRepoInfo env.gitEnv with
    | .error msg => .threw msg [] []
    | .ok repoInfo =>
      let config := effectiveConfig env options
      let baseVersion := baseVersionOf env options
      let existingTags := existingTagsOf env options
      let existingBranches := existingBranchesOf env options
      let finalVersion := finalVersionOf env options
      let branchName := branchNameOf env options
      let log :=
        ["Repository: " ++ repoInfo.currentBranch ++ " branch"]
          ++ (if !repoInfo.isClean then ["⚠ Working directory has uncommitted changes"] else [])
          ++ ["Generated base version: " ++ baseVersion]
          ++ (if existingTags.length > 0 then
                ["Found existing tags: " ++ joinComma existingTags] else [])
          ++ (if existingBranches.length > 0 then
                ["Found existing branches: " ++ joinComma existingBranches] else [])
          ++ ["Final version: " ++ finalVersion, "Branch name: " ++ branchName]
      if branchExists env.gitEnv branchName then
        .threw ("Branch " ++ branchName ++ " already exists locally") log []
      else if remoteBranchExists env.gitEnv branchName "origin" then
        .threw ("Branch " ++ branchName ++ " already exists on remote") log []
      else if options.dryRun then
        .returned
          (log ++ ["🔍 DRY RUN - No changes will be made",
                   "Would create branch: " ++ branchName,
                   "From base branch: " ++ config.baseBranch]
             ++ (if config.push then ["Would push to remote: origin"] else []))
          []
      else if !options.interactive && !env.confirmAnswer then
        .returned (log ++ ["Cancelled"]) []
      else
        let log := log ++ ["Creating release branch..."]
        let calls := [GitCall.createBranch branchName config.baseBranch]
        match env.createBranchErr with
        | some e => .threw e log calls
        | none =>
          let log := log ++ ["✓ Created and switched to branch: " ++ branchName]
          if config.push then
            let log := log ++ ["Pushing to remote..."]
            let calls := calls ++ [GitCall.pushBranch branchName "origin"]
            match env.pushErr with
            | some e => .threw e log calls
            | none =>
              .returned
                (log ++ ["✓ Pushed branch to origin/" ++ branchName]
                   ++ successLines finalVersion)
                calls
          else
            .returned (log ++ successLines finalVersion) calls

/-- Observable result of one whole `create` process run. -/
structure RunResult where
  exitCode : Nat
  errOutput : List String
  output : List String
  calls : List GitCall
deriving DecidableEq

/-- The commander `.action` wrapper: a thrown error is printed to the error
stream as `Error: <message>` and the process exits 1; otherwise it exits 0. -/
def runCreate (env : Env) (options : CreateOptions) : RunResult :=
  match createReleaseBranch env options with
  | .returned log calls => ⟨0, [], log, calls⟩
  | .threw msg log calls => ⟨1, ["Error: " ++ msg], log, calls⟩

/-!
Concrete sample runs used to instantiate the pipeline theorems.
-/

/-- A clean repository on `main`, 2024-01-15, with no tags or branches. -/
def envNoCollision : Env :=
  { gitEnv :=
      { status := .ok ⟨"main", [], 0, 0⟩
        tags := .ok []
        localBranches := .ok []
        remoteBranches := .ok []
        remotes := .ok [] }
    date := ⟨2024, 1, 15, 3, 15⟩
    answers := ⟨"YYYY.MM.DD", "main", false⟩
    confirmAnswer := true
    createBranchErr := none
    pushErr := none }

/-- Like `envNoCollision`, but the remote already has the target branch. -/
def envRemoteCollision : Env :=
  { envNoCollision with
    gitEnv := { envNoCollision.gitEnv with
                remoteBranches := .ok ["origin/release/v2024.01.15"] } }

/-- Like `envNoCollision`, but the user answers no to the confirmation. -/
def envDecline : Env :=
  { envNoCollision with confirmAnswer := false }

/-- Default `create` flags: `YYYY.MM.DD`, base `main`, nothing else. -/
def optsPlain : CreateOptions :=
  { format := "YYYY.MM.DD", baseBranch := "main", push := false,
    dryRun := false, interactive := false }

/-- Flags for `create --dry-run --push`. -/
def optsDryRun : CreateOptions :=
  { optsPlain with dryRun := true, push := true }

/-!
## Helper lemmas
-/

theorem strData_append (s t : String) : (s ++ t).data = s.data ++ t.data := rfl

theorem isPrefixOf_self_append (l t : List Char) : l.isPrefixOf (l ++ t) = true := by
  induction l with
  | nil => simp [List.isPrefixOf]
  | cons c cs ih => simp [List.isPrefixOf, ih]

theorem insertDesc_length (x : Int) (l : List Int) :
    (insertDesc x l).length = l.length + 1 := by
  induction l with
  | nil => rfl
  | cons y ys ih =>
    unfold insertDesc
    split
    · simp
    · simp [ih]

theorem sortDesc_length (l : List Int) : (sortDesc l).length = l.length := by
  induction l with
  | nil => rfl
  | cons x xs ih => simp [sortDesc, insertDesc_length, ih]

theorem sortDesc_eq_nil_iff (l : List Int) : sortDesc l = [] ↔ l = [] := by
  constructor
  · intro h
    have := sortDesc_length l
    rw [h] at this
    exact List.length_eq_zero.mp this.symm
  · intro h
    simp [h, sortDesc]

theorem headD_insertDesc (x : Int) (l : List Int) (d : Int) :
    (insertDesc x l).headD d = max x (l.headD x) := by
  cases l with
  | nil => simp [insertDesc]
  | cons y ys =>
    unfold insertDesc
    split
    · next hxy => simp [max_eq_left hxy]
    · next hxy =>
      have : x ≤ y := le_of_lt (lt_of_not_le hxy)
      simp [max_eq_right this]

theorem max_headD_sortDesc (l : List Int) (x : Int) :
    max x ((sortDesc l).headD x) = l.foldl max x := by
  induction l generalizing x with
  | nil => simp [sortDesc]
  | cons y ys ih =>
    show max x ((insertDesc y (sortDesc ys)).headD x) = (y :: ys).foldl max x
    rw [headD_insertDesc]
    cases hys : sortDesc ys with
    | nil =>
      have : ys = [] := (sortDesc_eq_nil_iff ys).mp hys
      subst this
      simp
    | cons z zs =>
      have h₂ : (sortDesc ys).headD (max x y) = z := by rw [hys]; rfl
      simp only [List.headD_cons]
      rw [← max_assoc, ← h₂, ih (max x y)]
      rfl

theorem headD_sortDesc_cons (x : Int) (xs : List Int) :
    (sortDesc (x :: xs)).headD 0 = maxIntList (x :: xs) := by
  show (insertDesc x (sortDesc xs)).headD 0 = maxIntList (x :: xs)
  rw [headD_insertDesc, max_headD_sortDesc]
  rfl

/-- Closed form of `generateIncremental`: the descending sort plus head is
the maximum of the parsed last components. -/
theorem generateIncremental_eq (base : String) (l : List String) :
    generateIncremental base l =
      if (l.filter (fun v => startsWithJS v base)).isEmpty then base
      else
        base ++ "." ++
          intDecimal
            (maxIntList ((l.filter (fun v => startsWithJS v base)).map lastComponentInt) + 1) := by
  unfold generateIncremental
  cases h : l.filter (fun v => startsWithJS v base) with
  | nil => simp [h, sortDesc]
  | cons a as =>
    have hlen : ((sortDesc (lastComponentInt a :: as.map lastComponentInt)).length == 0) =
        false := by
      simp [sortDesc_length]
    simp only [h, List.isEmpty_cons, List.map_cons, hlen, Bool.false_eq_true, if_false]
    rw [headD_sortDesc_cons]

/-!
## Claims C1–C5: the version disambiguator
-/

/-- C1: `generateIncremental` computes exactly the spec's §4.2 algorithm —
filter to literal-prefix matches, parse each match's final `"."` component
(unparsable treated as 0), take the maximum, add 1 and join it to the base
with `"."`, returning the base unchanged when nothing matches. -/
theorem generateIncremental_follows_spec_algorithm (base : String) (l : List String) :
    generateIncremental base l = resolveSpec base l := by
  rw [generateIncremental_eq]
  rfl

/-- C2 counterexample: on the spec's own example the code does NOT return
`"2024.01.15.4"` — the bare base version is itself a prefix match whose final
component `"15"` parses to 15, so the maximum is 15, not 3. -/
theorem resolve_spec_example_fails :
    generateIncremental "2024.01.15" ["2024.01.15", "2024.01.15.3", "2024.01.15.1"] ≠
      "2024.01.15.4" := by decide

/-- C2 amended: the call returns `"2024.01.15.16"` (matches parse to
15, 3, 1; max 15, plus 1). -/
theorem resolve_spec_example_value :
    generateIncremental "2024.01.15" ["2024.01.15", "2024.01.15.3", "2024.01.15.1"] =
      "2024.01.15.16" := by decide

/-- C3: when no existing version has the base as a literal string prefix,
`generateIncremental` returns the base unchanged. -/
theorem resolve_no_match_returns_base (base : String) (l : List String)
    (h : ∀ v ∈ l, startsWithJS v base = false) :
    generateIncremental base l = base := by
  rw [generateIncremental_eq]
  have : l.filter (fun v => startsWithJS v base) = [] :=
    List.filter_eq_nil_iff.mpr (by intro a ha; simp [h a ha])
  simp [this]

theorem resolve_no_match_returns_base_witness :
    (∀ v ∈ ["2023.12.01"], startsWithJS v "2024.01.15" = false) ∧
      generateIncremental "2024.01.15" ["2023.12.01"] = "2024.01.15" :=
  ⟨by decide, resolve_no_match_returns_base "2024.01.15" ["2023.12.01"] (by decide)⟩

/-- C4: prefix matching is purely lexical — as soon as some existing version
has the base as a literal string prefix (even an unrelated longer version),
the result is a dot-suffixed version different from the base. -/
theorem resolve_lexical_prefix_collision (base : String) (l : List String) (v : String)
    (hv : v ∈ l) (hpre : startsWithJS v base = true) :
    generateIncremental base l ≠ base ∧
      ∃ n : Int, generateIncremental base l = base ++ "." ++ intDecimal n := by
  have hmem : v ∈ l.filter (fun v => startsWithJS v base) :=
    List.mem_filter.mpr ⟨hv, hpre⟩
  have hne : (l.filter (fun v => startsWithJS v base)).isEmpty = false := by
    cases hfil : l.filter (fun v => startsWithJS v base) with
    | nil => rw [hfil] at hmem; cases hmem
    | cons a as => rfl
  rw [generateIncremental_eq, hne]
  simp only [Bool.false_eq_true, if_false]
  refine ⟨?_, _, rfl⟩
  intro hcontra
  have hlen := congrArg (fun s => s.data.length) hcontra
  simp only [strData_append, List.length_append, List.length_cons, List.length_nil] at hlen
  omega

theorem resolve_lexical_prefix_collision_witness :
    ("2024.10.1" ∈ ["2024.10.1"] ∧ startsWithJS "2024.10.1" "2024.1" = true) ∧
      (generateIncremental "2024.1" ["2024.10.1"] ≠ "2024.1" ∧
        ∃ n : Int, generateIncremental "2024.1" ["2024.10.1"] = "2024.1" ++ "." ++ intDecimal n) :=
  ⟨⟨by decide, by decide⟩,
    resolve_lexical_prefix_collision "2024.1" ["2024.10.1"] "2024.10.1" (by decide) (by decide)⟩

/-- C5: the result of `generateIncremental` always extends the base: it is
the base itself, or the base followed by `"."` and the decimal rendering of
(maximum parsed last component + 1). -/
theorem resolve_result_extends_base (base : String) (l : List String) :
    startsWithJS (generateIncremental base l) base = true ∧
      (generateIncremental base l = base ∨
        generateIncremental base l =
          base ++ "." ++
            intDecimal
              (maxIntList ((l.filter (fun v => startsWithJS v base)).map lastComponentInt) + 1)) := by
  rw [generateIncremental_eq]
  split
  · refine ⟨?_, Or.inl rfl⟩
    unfold startsWithJS
    simp [List.isPrefixOf]
  · refine ⟨?_, Or.inr rfl⟩
    unfold startsWithJS
    rw [strData_append, strData_append, List.append_assoc]
    exact isPrefixOf_self_append base.data _

/-!
## Claim C6: the YYYYMMDD formatter
-/

theorem natDecimalAux_length_le (fuel : Nat) :
    ∀ n k : Nat, n < fuel → n < 10 ^ k → 1 ≤ k → (natDecimalAux fuel n).length ≤ k := by
  induction fuel with
  | zero => intro n k hf _ _; omega
  | succ fuel ih =>
    intro n k hf hpow hk
    unfold natDecimalAux
    split
    · simpa using hk
    · next h10 =>
      rw [List.length_append]
      have hk2 : 2 ≤ k := by
        rcases Nat.lt_or_ge k 2 with hlt | hge
        · interval_cases k
          · simp at hpow; omega
        · exact hge
      have hdiv : n / 10 < 10 ^ (k - 1) := by
        rw [Nat.div_lt_iff_lt_mul (by norm_num)]
        calc n < 10 ^ k := hpow
        _ = 10 ^ (k - 1) * 10 := by
          rw [← pow_succ]
          congr 1
          omega
      have := ih (n / 10) (k - 1) (by omega) hdiv (by omega)
      simp only [List.length_cons, List.length_nil]
      omega

theorem natDecimalChars_length_le (n k : Nat) (h : n < 10 ^ k) (hk : 1 ≤ k) :
    (natDecimalChars n).length ≤ k :=
  natDecimalAux_length_le (n + 1) n k (by omega) h hk

theorem zeroPad_length_of_le (k : Nat) (l : List Char) (h : l.length ≤ k) :
    (zeroPad k l).length = k := by
  simp [zeroPad]
  omega

/-- C6: with the `"YYYYMMDD"` specifier (and calendar fields representable in
their rendered widths), `generate` returns the 8-character concatenation of
the zero-padded 4-digit UTC year, 2-digit UTC month and 2-digit UTC day. -/
theorem generate_yyyymmdd_shape (d : DateUTC)
    (hy : d.year < 10000) (hm : d.month < 100) (hd : d.day < 100) :
    (generate "YYYYMMDD" d).length = 8 ∧
      generate "YYYYMMDD" d =
        String.mk (zeroPad 4 (natDecimalChars d.year)) ++
          String.mk (zeroPad 2 (natDecimalChars d.month)) ++
          String.mk (zeroPad 2 (natDecimalChars d.day)) := by
  have hgen : generate "YYYYMMDD" d =
      String.mk (zeroPad 4 (natDecimalChars d.year) ++
        (zeroPad 2 (natDecimalChars d.month) ++
          (zeroPad 2 (natDecimalChars d.day) ++ []))) := rfl
  have hy4 : (natDecimalChars d.year).length ≤ 4 :=
    natDecimalChars_length_le _ 4 (by norm_num; omega) (by norm_num)
  have hm2 : (natDecimalChars d.month).length ≤ 2 :=
    natDecimalChars_length_le _ 2 (by norm_num; omega) (by norm_num)
  have hd2 : (natDecimalChars d.day).length ≤ 2 :=
    natDecimalChars_length_le _ 2 (by norm_num; omega) (by norm_num)
  constructor
  · rw [hgen]
    show (zeroPad 4 (natDecimalChars d.year) ++
      (zeroPad 2 (natDecimalChars d.month) ++
        (zeroPad 2 (natDecimalChars d.day) ++ []))).length = 8
    rw [List.append_nil, List.length_append, List.length_append,
      zeroPad_length_of_le _ _ hy4, zeroPad_length_of_le _ _ hm2,
      zeroPad_length_of_le _ _ hd2]
  · rw [hgen]
    show String.mk _ = String.mk
      ((zeroPad 4 (natDecimalChars d.year) ++ zeroPad 2 (natDecimalChars d.month)) ++
        zeroPad 2 (natDecimalChars d.day))
    apply congrArg
    simp [List.append_assoc]

theorem generate_yyyymmdd_shape_witness :
    ((2024 < 10000 ∧ 1 < 100 ∧ 15 < 100) ∧
      (generate "YYYYMMDD" ⟨2024, 1, 15, 3, 15⟩).length = 8 ∧
        generate "YYYYMMDD" ⟨2024, 1, 15, 3, 15⟩ =
          String.mk (zeroPad 4 (natDecimalChars 2024)) ++
            String.mk (zeroPad 2 (natDecimalChars 1)) ++
            String.mk (zeroPad 2 (natDecimalChars 15))) :=
  ⟨⟨by decide, by decide, by decide⟩,
    generate_yyyymmdd_shape ⟨2024, 1, 15, 3, 15⟩ (by decide) (by decide) (by decide)⟩

/-!
## Claims C7–C9: the create pipeline
-/

/-- C7: whenever the computed target branch name already exists locally or on
the remote, the run exits with code 1, writes to the error stream, and issues
no mutating git call. -/
theorem create_existing_branch_fails_fatally (env : Env) (options : CreateOptions)
    (h : (branchExists env.gitEnv (branchNameOf env options) ||
          remoteBranchExists env.gitEnv (branchNameOf env options) "origin") = true) :
    (runCreate env options).exitCode = 1 ∧
      (runCreate env options).calls = [] ∧
      (runCreate env options).errOutput ≠ [] := by
  unfold runCreate createReleaseBranch
  cases hrepo : isGitRepo env.gitEnv with
  | false => simp
  | true =>
    simp only [hrepo]
    cases hinfo : getRepoInfo env.gitEnv with
    | error msg => simp
    | ok info =>
      cases hb : branchExists env.gitEnv (branchNameOf env options) with
      | true => simp
      | false =>
        have hr : remoteBranchExists env.gitEnv (branchNameOf env options) "origin" = true := by
          rw [hb] at h
          simpa using h
        simp [hr]

theorem create_existing_branch_fails_fatally_witness :
    ((branchExists envRemoteCollision.gitEnv (branchNameOf envRemoteCollision optsPlain) ||
        remoteBranchExists envRemoteCollision.gitEnv
          (branchNameOf envRemoteCollision optsPlain) "origin") = true) ∧
      ((runCreate envRemoteCollision optsPlain).exitCode = 1 ∧
        (runCreate envRemoteCollision optsPlain).calls = [] ∧
        (runCreate envRemoteCollision optsPlain).errOutput ≠ []) :=
  ⟨by decide, create_existing_branch_fails_fatally envRemoteCollision optsPlain (by decide)⟩

/-- C8: with `--dry-run` the pipeline never issues a mutating git call
(whatever the push flag and whatever else happens), and when it reaches the
dry-run exit it returns exit code 0 after reporting the branch name and base
branch it would have used. -/
theorem create_dry_run_no_mutation (env : Env) (options : CreateOptions)
    (hdry : options.dryRun = true) :
    (runCreate env options).calls = [] ∧
      ((isGitRepo env.gitEnv = true ∧
          (getRepoInfo env.gitEnv).isOk = true ∧
          branchExists env.gitEnv (branchNameOf env options) = false ∧
          remoteBranchExists env.gitEnv (branchNameOf env options) "origin" = false) →
        ((runCreate env options).exitCode = 0 ∧
          ("Would create branch: " ++ branchNameOf env options) ∈ (runCreate env options).output ∧
          ("From base branch: " ++ (effectiveConfig env options).baseBranch) ∈
            (runCreate env options).output)) := by
  unfold runCreate createReleaseBranch
  cases hrepo : isGitRepo env.gitEnv with
  | false =>
    refine ⟨by simp, ?_⟩
    rintro ⟨h1, -⟩
    exact Bool.noConfusion h1
  | true =>
    simp only [hrepo]
    cases hinfo : getRepoInfo env.gitEnv with
    | error msg =>
      refine ⟨by simp, ?_⟩
      rintro ⟨-, h2, -⟩
      exact Bool.noConfusion h2
    | ok info =>
      cases hb : branchExists env.gitEnv (branchNameOf env options) with
      | true =>
        refine ⟨by simp, ?_⟩
        rintro ⟨-, -, h3, -⟩
        exact Bool.noConfusion h3
      | false =>
        cases hr : remoteBranchExists env.gitEnv (branchNameOf env options) "origin" with
        | true =>
          refine ⟨by simp, ?_⟩
          rintro ⟨-, -, -, h4⟩
          exact Bool.noConfusion h4
        | false =>
          refine ⟨by simp [hdry], ?_⟩
          rintro -
          refine ⟨by simp [hdry], ?_, ?_⟩
          · simp [hdry, List.mem_append]
          · simp [hdry, List.mem_append]

theorem create_dry_run_no_mutation_witness :
    (runCreate envNoCollision optsDryRun).calls = [] ∧
      ((runCreate envNoCollision optsDryRun).exitCode = 0 ∧
        ("Would create branch: " ++ branchNameOf envNoCollision optsDryRun) ∈
          (runCreate envNoCollision optsDryRun).output ∧
        ("From base branch: " ++ (effectiveConfig envNoCollision optsDryRun).baseBranch) ∈
          (runCreate envNoCollision optsDryRun).output) :=
  ⟨(create_dry_run_no_mutation envNoCollision optsDryRun rfl).1,
    (create_dry_run_no_mutation envNoCollision optsDryRun rfl).2
      ⟨rfl, rfl, by decide, by decide⟩⟩

/-- C9: in non-interactive, non-dry-run mode, declining the confirmation
prompt ends the run with exit code 0, nothing on the error stream, and no
mutating git call. -/
theorem create_decline_aborts_cleanly (env : Env) (options : CreateOptions) (info : RepoInfo)
    (hint : options.interactive = false) (hdry : options.dryRun = false)
    (hconf : env.confirmAnswer = false)
    (hrepo : isGitRepo env.gitEnv = true)
    (hinfo : getRepoInfo env.gitEnv = .ok info)
    (hb : branchExists env.gitEnv (branchNameOf env options) = false)
    (hrb : remoteBranchExists env.gitEnv (branchNameOf env options) "origin" = false) :
    (runCreate env options).exitCode = 0 ∧
      (runCreate env options).errOutput = [] ∧
      (runCreate env options).calls = [] := by
  unfold runCreate createReleaseBranch
  rw [hinfo]
  simp [hrepo, hb, hrb, hdry, hint, hconf]

theorem create_decline_aborts_cleanly_witness :
    (runCreate envDecline optsPlain).exitCode = 0 ∧
      (runCreate envDecline optsPlain).errOutput = [] ∧
      (runCreate envDecline optsPlain).calls = [] :=
  create_decline_aborts_cleanly envDecline optsPlain
    ⟨"main", true, none, 0, 0⟩ rfl rfl rfl rfl rfl (by decide) (by decide)

/-!
## Claim C10: best-effort queries degrade to safe defaults
-/

/-- C10: when the underlying git invocations fail, the tag and branch listing
queries return the empty collection and the existence queries return false,
for every pattern, branch name and remote. -/
theorem queries_degrade_on_failure (env : GitEnv) (pattern : String → Bool)
    (name remote e₁ e₂ e₃ : String)
    (ht : env.tags = .error e₁) (hl : env.localBranches = .error e₂)
    (hr : env.remoteBranches = .error e₃) :
    getMatchingTags env pattern = [] ∧
      getMatchingBranches env pattern = [] ∧
      branchExists env name = false ∧
      remoteBranchExists env name remote = false := by
  unfold getMatchingTags getMatchingBranches branchExists remoteBranchExists
  rw [ht, hl, hr]
  exact ⟨rfl, rfl, rfl, rfl⟩

theorem queries_degrade_on_failure_witness :
    getMatchingTags ⟨.error "s", .error "t", .error "l", .error "r", .error "m"⟩
        (fun _ => true) = [] ∧
      getMatchingBranches ⟨.error "s", .error "t", .error "l", .error "r", .error "m"⟩
        (fun _ => true) = [] ∧
      branchExists ⟨.error "s", .error "t", .error "l", .error "r", .error "m"⟩
        "release/v2024.01.15" = false ∧
      remoteBranchExists ⟨.error "s", .error "t", .error "l", .error "r", .error "m"⟩
        "release/v2024.01.15" "origin" = false :=
  queries_degrade_on_failure ⟨.error "s", .error "t", .error "l", .error "r", .error "m"⟩
    (fun _ => true) "release/v2024.01.15" "origin" "t" "l" "r" rfl rfl rfl
